import Mathlib

/-!
Verification of the emf-rs core against its specification.

The development shallowly embeds three parts of the repository:

* `FnId` — the stable function-identifier enumeration of
  `emf-core-base-ffi-rs/src/fn_id.rs`.
* `ErrorInfo` — the type-erased, vtable-dispatched error object of
  `ffi/emf-core-base-rs-ffi/src/errors/error_info.rs`, embedded over an
  explicit heap of boxed payloads.
* The library-management subsystem (handle table, loader registry,
  library registry / facade).  The repository only ships the public
  trait `LibraryToken` for this subsystem; its implementing registries
  are not part of the sources, so those operations are modelled from
  the specification text (each such definition says so in its
  doc comment).
-/

namespace EmfRs

/-! ## Function identifiers (`emf-core-base-ffi-rs/src/fn_id.rs`) -/

/-- Id of the exported functions, one constructor per variant of the
`FnId` enum in `fn_id.rs`. -/
inductive FnId where
  | SysLock
  | SysTryLock
  | SysUnlock
  | SysShutdown
  | SysPanic
  | SysHasFunction
  | SysGetFunction
  | SysGetSyncHandler
  | SysSetSyncHandler
  | VersionConstructShort
  | VersionConstructLong
  | VersionConstructFull
  | VersionConstructFromString
  | VersionRepresentationIsValid
  | VersionGetShortRepresentation
  | VersionGetShortRepresentationLength
  | VersionGetLongRepresentation
  | VersionGetLongRepresentationLength
  | VersionGetFullRepresentation
  | VersionGetFullRepresentationLength
  | VersionCompare
  | VersionCompareWeak
  | VersionCompareStrong
  | VersionIsCompatible
  | LibraryRegisterLoader
  | LibraryUnregisterLoader
  | LibraryGetNumLoaders
  | LibraryGetLibraryTypes
  | LibraryGetLoaderHandle
  | LibraryTypeExists
  | LibraryLibraryExists
  | LibraryUnsafeCreateLibraryHandle
  | LibraryUnsafeRemoveLibraryHandle
  | LibraryUnsafeLinkLibrary
  | LibraryUnsafeGetLoaderLibraryHandle
  | LibraryUnsafeGetLoaderHandle
  | LibraryUnsafeGetLoaderInterface
  | LibraryLoad
  | LibraryUnload
  | LibraryGetDataSymbol
  | LibraryGetFunctionSymbol
  deriving DecidableEq, Repr, Fintype

/-- The `repr(i32)` discriminant assigned to each `FnId` variant in
`fn_id.rs`. -/
def FnId.toInt : FnId → Int
  | .SysLock => 1
  | .SysTryLock => 2
  | .SysUnlock => 3
  | .SysShutdown => 4
  | .SysPanic => 5
  | .SysHasFunction => 6
  | .SysGetFunction => 7
  | .SysGetSyncHandler => 8
  | .SysSetSyncHandler => 9
  | .VersionConstructShort => 101
  | .VersionConstructLong => 102
  | .VersionConstructFull => 103
  | .VersionConstructFromString => 104
  | .VersionRepresentationIsValid => 105
  | .VersionGetShortRepresentation => 106
  | .VersionGetShortRepresentationLength => 107
  | .VersionGetLongRepresentation => 108
  | .VersionGetLongRepresentationLength => 109
  | .VersionGetFullRepresentation => 110
  | .VersionGetFullRepresentationLength => 111
  | .VersionCompare => 112
  | .VersionCompareWeak => 113
  | .VersionCompareStrong => 114
  | .VersionIsCompatible => 115
  | .LibraryRegisterLoader => 201
  | .LibraryUnregisterLoader => 202
  | .LibraryGetNumLoaders => 203
  | .LibraryGetLibraryTypes => 204
  | .LibraryGetLoaderHandle => 205
  | .LibraryTypeExists => 206
  | .LibraryLibraryExists => 207
  | .LibraryUnsafeCreateLibraryHandle => 208
  | .LibraryUnsafeRemoveLibraryHandle => 209
  | .LibraryUnsafeLinkLibrary => 210
  | .LibraryUnsafeGetLoaderLibraryHandle => 211
  | .LibraryUnsafeGetLoaderHandle => 212
  | .LibraryUnsafeGetLoaderInterface => 213
  | .LibraryLoad => 214
  | .LibraryUnload => 215
  | .LibraryGetDataSymbol => 216
  | .LibraryGetFunctionSymbol => 217

/-- Whether the variant is a system-control operation
(`SysLock` through `SysSetSyncHandler`). -/
def FnId.isSys : FnId → Bool
  | .SysLock | .SysTryLock | .SysUnlock | .SysShutdown | .SysPanic
  | .SysHasFunction | .SysGetFunction | .SysGetSyncHandler
  | .SysSetSyncHandler => true
  | _ => false

/-- Whether the variant is a version operation
(`VersionConstructShort` through `VersionIsCompatible`). -/
def FnId.isVersion : FnId → Bool
  | .VersionConstructShort | .VersionConstructLong | .VersionConstructFull
  | .VersionConstructFromString | .VersionRepresentationIsValid
  | .VersionGetShortRepresentation | .VersionGetShortRepresentationLength
  | .VersionGetLongRepresentation | .VersionGetLongRepresentationLength
  | .VersionGetFullRepresentation | .VersionGetFullRepresentationLength
  | .VersionCompare | .VersionCompareWeak | .VersionCompareStrong
  | .VersionIsCompatible => true
  | _ => false

/-- Whether the variant is a library operation
(`LibraryRegisterLoader` through `LibraryGetFunctionSymbol`). -/
def FnId.isLibrary : FnId → Bool
  | .LibraryRegisterLoader | .LibraryUnregisterLoader
  | .LibraryGetNumLoaders | .LibraryGetLibraryTypes
  | .LibraryGetLoaderHandle | .LibraryTypeExists | .LibraryLibraryExists
  | .LibraryUnsafeCreateLibraryHandle | .LibraryUnsafeRemoveLibraryHandle
  | .LibraryUnsafeLinkLibrary | .LibraryUnsafeGetLoaderLibraryHandle
  | .LibraryUnsafeGetLoaderHandle | .LibraryUnsafeGetLoaderInterface
  | .LibraryLoad | .LibraryUnload | .LibraryGetDataSymbol
  | .LibraryGetFunctionSymbol => true
  | _ => false

/-- C9: every `FnId` variant carries a distinct integer value, and the
values are partitioned by subsystem into non-overlapping numeric ranges:
system-control operations occupy 1–9, version operations occupy 101–115,
and library operations occupy 201–217. -/
theorem fnId_values_distinct_and_ranged :
    (∀ a b : FnId, a.toInt = b.toInt → a = b) ∧
    (∀ f : FnId, f.isSys = true ↔ 1 ≤ f.toInt ∧ f.toInt ≤ 9) ∧
    (∀ f : FnId, f.isVersion = true ↔ 101 ≤ f.toInt ∧ f.toInt ≤ 115) ∧
    (∀ f : FnId, f.isLibrary = true ↔ 201 ≤ f.toInt ∧ f.toInt ≤ 217) ∧
    (∀ f : FnId, f.isSys = true ∨ f.isVersion = true ∨ f.isLibrary = true) := by
  refine ⟨by decide, by decide, by decide, by decide, by decide⟩

/-! ## Error info (`ffi/emf-core-base-rs-ffi/src/errors/error_info.rs`)

The Rust `ErrorInfo` owns an optional raw pointer to a type-erased
payload plus a vtable of three operations.  We embed the heap of boxed
payloads explicitly: addresses are naturals, a cell is `some v` while
the box at that address is live and `none` once it has been freed.
A vtable operation that would `unwrap` a `None` pointer or touch a
freed cell (undefined behaviour in the source) returns `none`. -/

/-- Explicit heap of boxed payloads of type `α`. -/
structure Heap (α : Type) where
  next : Nat
  cells : Nat → Option α

/-- Allocating a box (`Box::leak` in the source): stores the value in a
fresh cell and returns its address. -/
def Heap.alloc {α : Type} (h : Heap α) (v : α) : Heap α × Nat :=
  (⟨h.next + 1, fun a => if a = h.next then some v else h.cells a⟩, h.next)

/-- Reading the payload behind an address. -/
def Heap.read {α : Type} (h : Heap α) (a : Nat) : Option α :=
  h.cells a

/-- Freeing the box at an address (`drop(Box::from_raw(..))`). -/
def Heap.freeCell {α : Type} (h : Heap α) (a : Nat) : Heap α :=
  ⟨h.next, fun b => if b = a then none else h.cells b⟩

/-- The empty heap. -/
def Heap.empty (α : Type) : Heap α :=
  ⟨0, fun _ => none⟩

@[simp]
theorem Heap.alloc_snd {α : Type} (h : Heap α) (v : α) : (h.alloc v).2 = h.next :=
  rfl

@[simp]
theorem Heap.alloc_next {α : Type} (h : Heap α) (v : α) :
    (h.alloc v).1.next = h.next + 1 :=
  rfl

@[simp]
theorem Heap.read_alloc {α : Type} (h : Heap α) (v : α) (a : Nat) :
    (h.alloc v).1.read a = if a = h.next then some v else h.read a :=
  rfl

@[simp]
theorem Heap.freeCell_next {α : Type} (h : Heap α) (a : Nat) :
    (h.freeCell a).next = h.next :=
  rfl

@[simp]
theorem Heap.read_freeCell {α : Type} (h : Heap α) (a b : Nat) :
    (h.freeCell a).read b = if b = a then none else h.read b :=
  rfl

/-- `cleanup_fn` of the `Box<T>` vtable: `drop(Box::from_raw(data.unwrap().cast().as_ptr()))`.
`data.unwrap()` on `None` panics, and reconstructing a box from an
already-freed cell is undefined; both are modelled as `none`. -/
def boxCleanupFn {α : Type} (h : Heap α) (data : Option Nat) : Option (Heap α) :=
  data.bind fun a => (h.read a).map fun _ => h.freeCell a

/-- `clone_fn` of the `Box<T>` vtable: reads the payload behind the
pointer, clones it into a fresh box and returns the new pointer
(`Box::new(data.unwrap().cast::<T>().as_ref().clone())`). -/
def boxCloneFn {α : Type} (h : Heap α) (data : Option Nat) :
    Option (Heap α × Option Nat) :=
  data.bind fun a => (h.read a).map fun v =>
    let p := h.alloc v
    (p.1, some p.2)

/-- `as_str_fn` of the `Box<T>` vtable: renders the payload behind the
pointer to its UTF-8 text (`ErrorString::from(data.unwrap().cast::<T>().as_ref().as_ref())`).
The returned heap is the input heap: the operation allocates nothing.
`toStr` is the payload type's `AsRef<str>` implementation. -/
def boxAsStrFn {α : Type} (toStr : α → String) (h : Heap α) (data : Option Nat) :
    Option (Heap α × String) :=
  data.bind fun a => (h.read a).map fun v => (h, toStr v)

/-- An `ErrorInfo` built over the `Box<T>` vtable: the optional payload
pointer.  (The vtable reference of the Rust struct is fixed to the
`Box<T>` vtable throughout, so it is kept implicit in the dispatch
functions below.) -/
structure ErrorInfo where
  data : Option Nat
  deriving DecidableEq, Repr

/-- `From<Box<T>> for ErrorInfo`: leaks the box and stores the
(non-null) pointer as `Some`. -/
def ErrorInfo.fromBox {α : Type} (h : Heap α) (v : α) : Heap α × ErrorInfo :=
  let p := h.alloc v
  (p.1, ⟨some p.2⟩)

/-- `ErrorInfo::as_str`: dispatches to the vtable's `as_str_fn` with the
stored pointer. -/
def ErrorInfo.as_str {α : Type} (e : ErrorInfo) (toStr : α → String) (h : Heap α) :
    Option (Heap α × String) :=
  boxAsStrFn toStr h e.data

/-- `Clone for ErrorInfo`: dispatches to the vtable's `clone_fn` and
wraps the returned pointer in a new `ErrorInfo`. -/
def ErrorInfo.clone {α : Type} (e : ErrorInfo) (h : Heap α) :
    Option (Heap α × ErrorInfo) :=
  (boxCloneFn h e.data).map fun p => (p.1, ⟨p.2⟩)

/-- `Drop for ErrorInfo`: dispatches to the vtable's `cleanup_fn` with
the stored pointer. -/
def ErrorInfo.drop {α : Type} (e : ErrorInfo) (h : Heap α) : Option (Heap α) :=
  boxCleanupFn h e.data

/-- `AsRef<str> for ErrorInfo`: fetches the string via `as_str` and
returns `""` when the span is empty, the borrowed view otherwise. -/
def ErrorInfo.as_ref {α : Type} (e : ErrorInfo) (toStr : α → String) (h : Heap α) :
    Option String :=
  (e.as_str toStr h).map fun p => if p.2.isEmpty then "" else p.2

/-- C1: for every payload wrapped via `ErrorInfo::from`, the duplicate
produced by `clone` renders the same text as the original, and freeing
either the original or the duplicate leaves the other's text unchanged:
the payload is a deep copy with no shared mutable state. -/
theorem errorInfo_duplicate_text_roundtrip {α : Type} (toStr : α → String)
    (h0 : Heap α) (v : α) :
    ∃ h2 e2,
      ((ErrorInfo.fromBox h0 v).2).clone (ErrorInfo.fromBox h0 v).1 = some (h2, e2) ∧
      (((ErrorInfo.fromBox h0 v).2).as_str toStr h2).map Prod.snd = some (toStr v) ∧
      (e2.as_str toStr h2).map Prod.snd = some (toStr v) ∧
      (∃ h3, ((ErrorInfo.fromBox h0 v).2).drop h2 = some h3 ∧
        (e2.as_str toStr h3).map Prod.snd = some (toStr v)) ∧
      (∃ h4, e2.drop h2 = some h4 ∧
        (((ErrorInfo.fromBox h0 v).2).as_str toStr h4).map Prod.snd = some (toStr v)) := by
  simp [ErrorInfo.fromBox, ErrorInfo.as_str, ErrorInfo.clone, ErrorInfo.drop,
    boxAsStrFn, boxCloneFn, boxCleanupFn]
  refine ⟨_, _, ⟨rfl, rfl⟩, ?_, ?_, ?_, ?_⟩ <;> simp

/-- C7: `as_str` returns the borrowed UTF-8 text of the error message
without allocating (the heap returned alongside the view is the input
heap, unchanged), an empty payload yields an empty view, and the
`AsRef<str>` implementation agrees with it. -/
theorem errorInfo_as_str_no_alloc {α : Type} (toStr : α → String)
    (h0 : Heap α) (v : α) :
    ((ErrorInfo.fromBox h0 v).2).as_str toStr (ErrorInfo.fromBox h0 v).1 =
      some ((ErrorInfo.fromBox h0 v).1, toStr v) ∧
    (toStr v = "" →
      ((ErrorInfo.fromBox h0 v).2).as_str toStr (ErrorInfo.fromBox h0 v).1 =
        some ((ErrorInfo.fromBox h0 v).1, "")) ∧
    ((ErrorInfo.fromBox h0 v).2).as_ref toStr (ErrorInfo.fromBox h0 v).1 =
      some (toStr v) := by
  refine ⟨?_, fun he => ?_, ?_⟩
  · simp [ErrorInfo.fromBox, ErrorInfo.as_str, boxAsStrFn]
  · simp [ErrorInfo.fromBox, ErrorInfo.as_str, boxAsStrFn, he]
  · simp [ErrorInfo.fromBox, ErrorInfo.as_str, ErrorInfo.as_ref, boxAsStrFn,
      String.isEmpty_iff]
    exact fun h => h.symm

/-- C8: over the embedded lifecycle of an `ErrorInfo`, cleanup runs
exactly once per object: cloning performs no cleanup of the original
(its cell is untouched) and shares no mutable state with it (the
duplicate's pointer differs), destruction frees exactly the object's
own cell and leaves the duplicate's cell intact, and a second cleanup
of the already-destroyed value cannot run (the model rejects it). -/
theorem errorInfo_cleanup_exactly_once {α : Type} (h0 : Heap α) (v : α) :
    ∃ h2 e2,
      ((ErrorInfo.fromBox h0 v).2).clone (ErrorInfo.fromBox h0 v).1 = some (h2, e2) ∧
      e2.data ≠ ((ErrorInfo.fromBox h0 v).2).data ∧
      (∀ a, ((ErrorInfo.fromBox h0 v).2).data = some a →
        h2.read a = ((ErrorInfo.fromBox h0 v).1).read a) ∧
      ∃ h3, ((ErrorInfo.fromBox h0 v).2).drop h2 = some h3 ∧
        (∀ a, ((ErrorInfo.fromBox h0 v).2).data = some a → h3.read a = none) ∧
        (∀ b, e2.data = some b → h3.read b = h2.read b) ∧
        ((ErrorInfo.fromBox h0 v).2).drop h3 = none := by
  simp [ErrorInfo.fromBox, ErrorInfo.clone, ErrorInfo.drop,
    boxCloneFn, boxCleanupFn]
  refine ⟨_, _, ⟨rfl, rfl⟩, ?_, ?_, ?_⟩ <;> simp

/-- C10: an `ErrorInfo` built via `From<Box<T>>` always carries a `Some`
payload pointer, and so does its clone; hence the `data.unwrap()` calls
inside the `Box`-based `cleanup_fn`, `clone_fn` and `as_str_fn` never
hit `None` across `as_str`, `clone` and `drop` of such objects, and
`as_ref` returns exactly the text the boxed payload renders to. -/
theorem errorInfo_box_data_always_some {α : Type} (toStr : α → String)
    (h0 : Heap α) (v : α) :
    (((ErrorInfo.fromBox h0 v).2).data).isSome = true ∧
    ∃ h2 e2,
      ((ErrorInfo.fromBox h0 v).2).clone (ErrorInfo.fromBox h0 v).1 = some (h2, e2) ∧
      e2.data.isSome = true ∧
      (((ErrorInfo.fromBox h0 v).2).as_str toStr (ErrorInfo.fromBox h0 v).1).isSome = true ∧
      (e2.as_str toStr h2).isSome = true ∧
      (((ErrorInfo.fromBox h0 v).2).drop h2).isSome = true ∧
      (e2.drop h2).isSome = true ∧
      ((ErrorInfo.fromBox h0 v).2).as_ref toStr (ErrorInfo.fromBox h0 v).1 =
        some (toStr v) := by
  refine ⟨rfl, ?_⟩
  simp [ErrorInfo.fromBox, ErrorInfo.clone, ErrorInfo.drop, ErrorInfo.as_str,
    ErrorInfo.as_ref, boxCloneFn, boxCleanupFn, boxAsStrFn, String.isEmpty_iff]
  refine ⟨_, _, ⟨rfl, rfl⟩, ?_, ?_, ?_, ?_, ?_⟩ <;>
    first
      | simp
      | exact fun h => h.symm

/-! ## Library management subsystem

The repository ships only the public trait `LibraryToken`
(`emf-core-base-rs-bare/src/library/library_token.rs`); the registries
implementing it are not part of the sources.  The definitions below are
therefore modelled from the specification text (§4.2–§4.5 of the spec). -/

/-- Modelled from the spec: the error taxonomy of §7 (the implementing
`LibraryError` type is not in the sources). -/
inductive LibraryError where
  | invalidHandle
  | invalidLoader
  | typeAlreadyRegistered
  | unknownType
  | bufferTooSmall
  | loadFailed
  | unloadFailed
  | symbolNotFound
  | notLinked
  deriving DecidableEq, Repr

/-- Modelled from the spec: an opaque handle, an index paired with a
generation counter (§3, the handle-table implementation is not in the
sources). -/
structure Handle where
  index : Nat
  generation : Nat
  deriving DecidableEq, Repr

/-- Modelled from the spec: one slot of the handle table, the live
generation at an index together with whether the slot is currently
allocated. -/
structure Slot where
  generation : Nat
  live : Bool
  deriving DecidableEq, Repr

/-- Modelled from the spec: the generic handle allocator/validator of
§4.2 (not in the sources): a slot per index and a free list of
reusable indices. -/
structure HandleTable where
  slots : List Slot
  freeList : List Nat
  deriving DecidableEq, Repr

/-- The empty handle table. -/
def HandleTable.empty : HandleTable :=
  ⟨[], []⟩

/-- Modelled from the spec: `allocate()` returns a fresh
(index, generation) handle, reusing freed slots from the free list
when available and growing the table otherwise (§4.2). -/
def HandleTable.allocate (t : HandleTable) : HandleTable × Handle :=
  match t.freeList with
  | [] => (⟨t.slots ++ [⟨0, true⟩], []⟩, ⟨t.slots.length, 0⟩)
  | i :: rest =>
    let g := ((t.slots.getD i ⟨0, false⟩).generation)
    (⟨t.slots.set i ⟨g, true⟩, rest⟩, ⟨i, g⟩)

/-- Modelled from the spec: `validate(handle)` is true iff the handle's
generation matches the live generation at its index (§4.2). -/
def HandleTable.validate (t : HandleTable) (h : Handle) : Bool :=
  match t.slots[h.index]? with
  | some s => s.live && s.generation == h.generation
  | none => false

/-- Modelled from the spec: `free(handle)` fails with `InvalidHandle` if
the handle is already invalid; otherwise it increments the slot's
generation and returns the slot to the free list (§4.2). -/
def HandleTable.free (t : HandleTable) (h : Handle) :
    Except LibraryError HandleTable :=
  if t.validate h then
    .ok ⟨t.slots.set h.index ⟨h.generation + 1, false⟩, h.index :: t.freeList⟩
  else
    .error .invalidHandle

/-- A subsequent structural operation on the handle table. -/
inductive TableOp where
  | alloc
  | free (h : Handle)
  deriving DecidableEq, Repr

/-- Runs a sequence of operations on the handle table (a failing `free`
leaves the table unchanged). -/
def HandleTable.run (t : HandleTable) : List TableOp → HandleTable
  | [] => t
  | .alloc :: ops => (t.allocate).1.run ops
  | .free h :: ops =>
    match t.free h with
    | .ok t' => t'.run ops
    | .error _ => t.run ops

/-- After a slot's generation has moved past a handle's generation it
never moves back, whatever operations follow; so the handle stays
invalid. -/
theorem HandleTable.run_stale (h : Handle) (ops : List TableOp) :
    ∀ t : HandleTable,
      (∃ s, t.slots[h.index]? = some s ∧ h.generation < s.generation) →
      ∃ s, (t.run ops).slots[h.index]? = some s ∧ h.generation < s.generation := by
  induction ops with
  | nil => intro t ht; exact ht
  | cons op ops ih =>
    intro t ht
    obtain ⟨s, hs, hlt⟩ := ht
    have hidx : h.index < t.slots.length := by
      by_contra hge
      rw [List.getElem?_eq_none (by omega)] at hs
      exact Option.noConfusion hs
    cases op with
    | alloc =>
      refine ih _ ?_
      unfold HandleTable.allocate
      cases hfl : t.freeList with
      | nil =>
        simp only
        exact ⟨s, by rw [List.getElem?_append_left hidx]; exact hs, hlt⟩
      | cons i rest =>
        simp only
        by_cases hi : i = h.index
        · subst hi
          have hgd : t.slots.getD h.index ⟨0, false⟩ = s := by
            rw [List.getD_eq_getElem?_getD, hs]; rfl
          refine ⟨⟨s.generation, true⟩, ?_, hlt⟩
          simp only [hgd]
          exact List.getElem?_set_self hidx
        · exact ⟨s, by rw [List.getElem?_set_ne hi]; exact hs, hlt⟩
    | free g =>
      cases hfree : t.free g with
      | error e =>
        simp only [HandleTable.run, hfree]
        exact ih _ ⟨s, hs, hlt⟩
      | ok t' =>
        simp only [HandleTable.run, hfree]
        refine ih _ ?_
        unfold HandleTable.free at hfree
        by_cases hv : t.validate g = true
        · rw [if_pos hv] at hfree
          cases hfree
          by_cases hgi : g.index = h.index
          · unfold HandleTable.validate at hv
            rw [hgi, hs] at hv
            simp only [Bool.and_eq_true_iff, beq_iff_eq] at hv
            obtain ⟨-, hgen⟩ := hv
            refine ⟨⟨g.generation + 1, false⟩,
              ?_, by show h.generation < g.generation + 1; omega⟩
            rw [hgi]
            exact List.getElem?_set_self hidx
          · exact ⟨s, by rw [List.getElem?_set_ne hgi]; exact hs, hlt⟩
        · rw [if_neg hv] at hfree
          exact Except.noConfusion hfree

/-- C4: a handle freed via `free` never validates again — even if its
slot is reused by later `allocate`s or touched by further operations —
and `validate` is true iff the handle's generation matches the live
generation recorded at its index. -/
theorem handle_generation_safety (t t' : HandleTable) (h : Handle)
    (hfree : t.free h = .ok t') (ops : List TableOp) :
    (t'.run ops).validate h = false ∧
    (∀ (u : HandleTable) (g : Handle),
      u.validate g = true ↔
        ∃ s, u.slots[g.index]? = some s ∧ s.live = true ∧
          s.generation = g.generation) := by
  constructor
  · have hv : t.validate h = true := by
      by_contra hnv
      unfold HandleTable.free at hfree
      rw [if_neg hnv] at hfree
      exact Except.noConfusion hfree
    have hidx : h.index < t.slots.length := by
      unfold HandleTable.validate at hv
      cases hs : t.slots[h.index]? with
      | none => rw [hs] at hv; exact Bool.noConfusion hv
      | some s =>
        by_contra hge
        rw [List.getElem?_eq_none (by omega)] at hs
        exact Option.noConfusion hs
    have hstart : ∃ s, t'.slots[h.index]? = some s ∧ h.generation < s.generation := by
      unfold HandleTable.free at hfree
      rw [if_pos hv] at hfree
      cases hfree
      exact ⟨⟨h.generation + 1, false⟩, by simpa using List.getElem?_set_self hidx,
        Nat.lt_succ_self _⟩
    obtain ⟨s, hs, hlt⟩ := HandleTable.run_stale h ops t' hstart
    unfold HandleTable.validate
    rw [hs]
    have hbf : (s.generation == h.generation) = false := by
      rw [beq_eq_false_iff_ne]
      omega
    simp [hbf]
  · intro u g
    unfold HandleTable.validate
    cases hs : u.slots[g.index]? with
    | none => simp
    | some s =>
      simp only [Bool.and_eq_true_iff, beq_iff_eq, Option.some.injEq]
      constructor
      · rintro ⟨hl, hgen⟩
        exact ⟨s, rfl, hl, hgen⟩
      · rintro ⟨s', hsome, hl, hgen⟩
        cases hsome
        exact ⟨hl, hgen⟩

theorem handle_generation_safety_witness :
    ((HandleTable.mk [⟨1, false⟩] [0]).run [TableOp.alloc]).validate ⟨0, 0⟩ = false ∧
    (∀ (u : HandleTable) (g : Handle),
      u.validate g = true ↔
        ∃ s, u.slots[g.index]? = some s ∧ s.live = true ∧
          s.generation = g.generation) :=
  handle_generation_safety ⟨[⟨0, true⟩], []⟩ ⟨[⟨1, false⟩], [0]⟩ ⟨0, 0⟩
    rfl [TableOp.alloc]

theorem getElem?_some_lt {α : Type} {l : List α} {i : Nat} {a : α}
    (h : l[i]? = some a) : i < l.length := by
  by_contra hge
  rw [List.getElem?_eq_none (by omega)] at h
  exact Option.noConfusion h

/-- Unfolding of `validate`: the handle is valid iff its generation
matches the live generation at its index. -/
theorem HandleTable.validate_iff (t : HandleTable) (h : Handle) :
    t.validate h = true ↔
      ∃ s, t.slots[h.index]? = some s ∧ s.live = true ∧
        s.generation = h.generation := by
  unfold HandleTable.validate
  cases hs : t.slots[h.index]? with
  | none => simp
  | some s =>
    simp only [Bool.and_eq_true_iff, beq_iff_eq, Option.some.injEq]
    constructor
    · rintro ⟨hl, hgen⟩
      exact ⟨s, rfl, hl, hgen⟩
    · rintro ⟨s', hsome, hl, hgen⟩
      cases hsome
      exact ⟨hl, hgen⟩

/-- Well-formedness of a handle table: the free list holds no
duplicates and every index on it points at a non-live slot. -/
def HandleTable.WF (t : HandleTable) : Prop :=
  t.freeList.Nodup ∧ ∀ i ∈ t.freeList, ∃ s, t.slots[i]? = some s ∧ s.live = false

theorem HandleTable.WF_empty : HandleTable.empty.WF := by
  constructor
  · exact List.nodup_nil
  · intro i hi
    exact absurd hi (List.not_mem_nil i)

/-- The handle returned by `allocate` is not valid in the pre-state:
allocation mints a genuinely fresh handle. -/
theorem HandleTable.allocate_fresh (t : HandleTable) (hwf : t.WF) :
    t.validate (t.allocate).2 = false := by
  obtain ⟨-, hfree⟩ := hwf
  rw [Bool.eq_false_iff]
  intro hv
  rw [HandleTable.validate_iff] at hv
  obtain ⟨s, hs, hlive, -⟩ := hv
  unfold HandleTable.allocate at hs
  cases hfl : t.freeList with
  | nil =>
    rw [hfl] at hs
    simp only at hs
    rw [List.getElem?_eq_none (Nat.le_refl _)] at hs
    exact Option.noConfusion hs
  | cons i rest =>
    rw [hfl] at hs
    simp only at hs
    obtain ⟨s', hs', hlive'⟩ := hfree i (by rw [hfl]; exact List.mem_cons_self i rest)
    rw [hs] at hs'
    cases hs'
    rw [hlive] at hlive'
    exact Bool.noConfusion hlive'

/-- The handle returned by `allocate` is valid in the post-state. -/
theorem HandleTable.allocate_valid (t : HandleTable) (hwf : t.WF) :
    (t.allocate).1.validate (t.allocate).2 = true := by
  obtain ⟨-, hfree⟩ := hwf
  rw [HandleTable.validate_iff]
  unfold HandleTable.allocate
  cases hfl : t.freeList with
  | nil =>
    simp only
    refine ⟨⟨0, true⟩, ?_, rfl, rfl⟩
    rw [List.getElem?_append_right (Nat.le_refl _)]
    simp
  | cons i rest =>
    simp only
    obtain ⟨s, hs, -⟩ := hfree i (by rw [hfl]; exact List.mem_cons_self i rest)
    have hilt : i < t.slots.length := getElem?_some_lt hs
    exact ⟨_, List.getElem?_set_self hilt, rfl, rfl⟩

/-- Allocation keeps every previously valid handle valid. -/
theorem HandleTable.allocate_preserves_valid (t : HandleTable) (h : Handle)
    (hwf : t.WF) (hv : t.validate h = true) :
    (t.allocate).1.validate h = true := by
  obtain ⟨-, hfree⟩ := hwf
  rw [HandleTable.validate_iff] at hv ⊢
  obtain ⟨s, hs, hlive, hgen⟩ := hv
  unfold HandleTable.allocate
  cases hfl : t.freeList with
  | nil =>
    simp only
    exact ⟨s, by rw [List.getElem?_append_left (getElem?_some_lt hs)]; exact hs,
      hlive, hgen⟩
  | cons i rest =>
    simp only
    by_cases hi : i = h.index
    · obtain ⟨s', hs', hlive'⟩ := hfree i (by rw [hfl]; exact List.mem_cons_self i rest)
      rw [hi, hs] at hs'
      cases hs'
      rw [hlive] at hlive'
      exact Bool.noConfusion hlive'
    · exact ⟨s, by rw [List.getElem?_set_ne hi]; exact hs, hlive, hgen⟩

/-- Allocation preserves well-formedness. -/
theorem HandleTable.allocate_WF (t : HandleTable) (hwf : t.WF) :
    (t.allocate).1.WF := by
  obtain ⟨hnd, hfree⟩ := hwf
  unfold HandleTable.allocate
  cases hfl : t.freeList with
  | nil =>
    exact ⟨List.nodup_nil, fun i hi => absurd hi (List.not_mem_nil i)⟩
  | cons i rest =>
    rw [hfl] at hnd
    constructor
    · exact hnd.of_cons
    · intro j hj
      have hji : j ≠ i := fun hji => (List.nodup_cons.mp hnd).1 (hji ▸ hj)
      obtain ⟨s, hs, hlive⟩ := hfree j (by rw [hfl]; exact List.mem_cons_of_mem i hj)
      exact ⟨s, by rw [List.getElem?_set_ne (fun hij => hji hij.symm)]; exact hs, hlive⟩

/-- A successful `free` presupposes a valid handle. -/
theorem HandleTable.free_valid_pre (t t' : HandleTable) (h : Handle)
    (hok : t.free h = .ok t') : t.validate h = true := by
  by_contra hnv
  unfold HandleTable.free at hok
  rw [if_neg hnv] at hok
  exact Except.noConfusion hok

/-- A successful `free` of one handle keeps every other valid handle
valid. -/
theorem HandleTable.free_preserves_valid (t t' : HandleTable) (h g : Handle)
    (hok : t.free h = .ok t') (hne : g ≠ h) (hv : t.validate g = true) :
    t'.validate g = true := by
  have hvh := HandleTable.free_valid_pre t t' h hok
  unfold HandleTable.free at hok
  rw [if_pos hvh] at hok
  cases hok
  rw [HandleTable.validate_iff] at hv hvh ⊢
  obtain ⟨s, hs, hlive, hgen⟩ := hv
  by_cases hgi : h.index = g.index
  · obtain ⟨s', hs', -, hgen'⟩ := hvh
    rw [hgi, hs] at hs'
    cases hs'
    have hgh : g = h := by
      cases g
      cases h
      simp_all
    exact absurd hgh hne
  · exact ⟨s, by rw [List.getElem?_set_ne hgi]; exact hs, hlive, hgen⟩

/-- A successful `free` preserves well-formedness. -/
theorem HandleTable.free_WF (t t' : HandleTable) (h : Handle)
    (hwf : t.WF) (hok : t.free h = .ok t') : t'.WF := by
  have hvh := HandleTable.free_valid_pre t t' h hok
  obtain ⟨hnd, hfree⟩ := hwf
  unfold HandleTable.free at hok
  rw [if_pos hvh] at hok
  cases hok
  rw [HandleTable.validate_iff] at hvh
  obtain ⟨s, hs, hlive, -⟩ := hvh
  have hnotmem : h.index ∉ t.freeList := by
    intro hmem
    obtain ⟨s', hs', hlive'⟩ := hfree h.index hmem
    rw [hs] at hs'
    cases hs'
    rw [hlive] at hlive'
    exact Bool.noConfusion hlive'
  constructor
  · exact List.nodup_cons.mpr ⟨hnotmem, hnd⟩
  · intro j hj
    rcases List.mem_cons.mp hj with hj | hj
    · subst hj
      exact ⟨⟨h.generation + 1, false⟩,
        by simpa using List.getElem?_set_self (getElem?_some_lt hs), rfl⟩
    · have hji : j ≠ h.index := fun hji => hnotmem (hji ▸ hj)
      obtain ⟨s', hs', hlive'⟩ := hfree j hj
      exact ⟨s', by rw [List.getElem?_set_ne (fun hij => hji hij.symm)]; exact hs', hlive'⟩

/-! ## Loader registry (§4.3 of the spec) -/

/-- Modelled from the spec: the loader registry of §4.3 (not in the
sources; `library_token.rs` only declares the trait): a handle table
for loader handles plus, per registered loader, its handle, the stored
loader implementation and the bound library type. -/
structure LoaderRegistry (L : Type) where
  table : HandleTable
  entries : List (Handle × L × String)

/-- The registered library-type identifiers, in registration order. -/
def LoaderRegistry.registeredTypes {L : Type} (r : LoaderRegistry L) : List String :=
  r.entries.map fun p => p.2.2

/-- Modelled from the spec: `type_exists` / `library_type_exists`,
whether a library type is currently bound to a loader. -/
def LoaderRegistry.library_type_exists {L : Type} (r : LoaderRegistry L)
    (lib_type : String) : Bool :=
  r.registeredTypes.contains lib_type

/-- Modelled from the spec: `count()` / `get_num_loaders`, the number of
registered loaders. -/
def LoaderRegistry.get_num_loaders {L : Type} (r : LoaderRegistry L) : Nat :=
  r.entries.length

/-- Modelled from the spec: `register_loader` fails with
`TypeAlreadyRegistered` if the library type is already bound; otherwise
it allocates a handle, stores the loader implementation and the type,
and returns the handle (§4.3). -/
def LoaderRegistry.register_loader {L : Type} (r : LoaderRegistry L) (loader : L)
    (lib_type : String) : Except LibraryError (LoaderRegistry L × Handle) :=
  if r.library_type_exists lib_type then
    .error .typeAlreadyRegistered
  else
    let p := r.table.allocate
    .ok (⟨p.1, r.entries ++ [(p.2, loader, lib_type)]⟩, p.2)

/-- Modelled from the spec: `get_library_types` / `list_types` copies
the registered type identifiers into the caller's buffer, returning the
number of copied elements; it fails with `BufferTooSmall`, writing
nothing, if the buffer's capacity is below `count()` (§4.3).  The
returned pair is (outcome, buffer contents after the call). -/
def LoaderRegistry.get_library_types {L : Type} (r : LoaderRegistry L)
    (buf : List String) : Except LibraryError Nat × List String :=
  if buf.length < r.get_num_loaders then
    (.error .bufferTooSmall, buf)
  else
    (.ok r.get_num_loaders, r.registeredTypes ++ buf.drop r.get_num_loaders)

/-- C2: `register_loader` on an already-bound library type always fails
with `TypeAlreadyRegistered` (the registry value is returned untouched
on failure by construction); on an unbound type it allocates a fresh
handle — one not valid before the call, valid after — appends the
loader implementation and the type, and returns that handle. -/
theorem register_loader_spec {L : Type} (r : LoaderRegistry L) (loader : L)
    (lib_type : String) (hwf : r.table.WF) :
    (r.library_type_exists lib_type = true →
      r.register_loader loader lib_type = .error .typeAlreadyRegistered) ∧
    (r.library_type_exists lib_type = false →
      ∃ r' h, r.register_loader loader lib_type = .ok (r', h) ∧
        r'.entries = r.entries ++ [(h, loader, lib_type)] ∧
        r.table.validate h = false ∧
        r'.table.validate h = true) := by
  constructor
  · intro hex
    unfold LoaderRegistry.register_loader
    rw [if_pos hex]
  · intro hnex
    unfold LoaderRegistry.register_loader
    rw [if_neg (by rw [hnex]; exact Bool.false_ne_true)]
    exact ⟨_, _, rfl, rfl, HandleTable.allocate_fresh r.table hwf,
      HandleTable.allocate_valid r.table hwf⟩

theorem register_loader_spec_witness :
    ((LoaderRegistry.mk HandleTable.empty [(⟨0, 0⟩, 7, "native")]).library_type_exists
        "native" = true →
      (LoaderRegistry.mk (L := Nat) HandleTable.empty
        [(⟨0, 0⟩, 7, "native")]).register_loader 9 "native" =
        .error .typeAlreadyRegistered) ∧
    ((LoaderRegistry.mk HandleTable.empty [(⟨0, 0⟩, 7, "native")]).library_type_exists
        "native" = false →
      ∃ r' h,
        (LoaderRegistry.mk (L := Nat) HandleTable.empty
          [(⟨0, 0⟩, 7, "native")]).register_loader 9 "native" = .ok (r', h) ∧
        r'.entries = [(⟨0, 0⟩, 7, "native")] ++ [(h, 9, "native")] ∧
        HandleTable.empty.validate h = false ∧
        r'.table.validate h = true) :=
  register_loader_spec (LoaderRegistry.mk HandleTable.empty [(⟨0, 0⟩, 7, "native")])
    9 "native" (by constructor <;> simp [HandleTable.empty])

/-- Registration never duplicates a library type, so the registered
types stay pairwise distinct. -/
theorem register_loader_nodup {L : Type} (r : LoaderRegistry L) (loader : L)
    (lib_type : String) (r' : LoaderRegistry L) (h : Handle)
    (hnd : r.registeredTypes.Nodup)
    (hok : r.register_loader loader lib_type = .ok (r', h)) :
    r'.registeredTypes.Nodup := by
  unfold LoaderRegistry.register_loader at hok
  by_cases hex : r.library_type_exists lib_type = true
  · rw [if_pos hex] at hok
    exact Except.noConfusion hok
  · rw [if_neg hex] at hok
    cases hok
    unfold LoaderRegistry.registeredTypes at hnd ⊢
    rw [List.map_append]
    refine List.Nodup.append hnd (List.nodup_singleton _) ?_
    intro ty hty hty'
    have hty2 : ty = lib_type := List.mem_singleton.mp hty'
    refine hex ?_
    unfold LoaderRegistry.library_type_exists
    rw [List.contains_eq_any_beq, List.any_eq_true]
    exact ⟨ty, hty, by rw [hty2]; simp⟩

/-- C3: `get_library_types` with a buffer of capacity below `count()`
always fails with `BufferTooSmall` and leaves the buffer untouched;
with capacity at least `count()` it returns exactly `count()` and, the
registered types being pairwise distinct, every registered type appears
exactly once among the `count()` elements written. -/
theorem get_library_types_buffer_contract {L : Type} (r : LoaderRegistry L)
    (buf : List String) (hnd : r.registeredTypes.Nodup) :
    (buf.length < r.get_num_loaders →
      r.get_library_types buf = (.error .bufferTooSmall, buf)) ∧
    (r.get_num_loaders ≤ buf.length →
      (r.get_library_types buf).1 = .ok r.get_num_loaders ∧
      ∀ ty ∈ r.registeredTypes,
        ((r.get_library_types buf).2.take r.get_num_loaders).count ty = 1) := by
  constructor
  · intro hlt
    unfold LoaderRegistry.get_library_types
    rw [if_pos hlt]
  · intro hge
    have hnlt : ¬ buf.length < r.get_num_loaders := by omega
    unfold LoaderRegistry.get_library_types
    rw [if_neg hnlt]
    refine ⟨rfl, fun ty hty => ?_⟩
    have hlen : r.registeredTypes.length = r.get_num_loaders := by
      unfold LoaderRegistry.registeredTypes LoaderRegistry.get_num_loaders
      exact List.length_map _ _
    rw [List.take_left' hlen]
    exact List.count_eq_one_of_mem hnd hty

theorem get_library_types_buffer_contract_witness :
    ((["", ""] : List String).length <
        (LoaderRegistry.mk HandleTable.empty
          [(⟨0, 0⟩, 7, "native")]).get_num_loaders →
      (LoaderRegistry.mk (L := Nat) HandleTable.empty
        [(⟨0, 0⟩, 7, "native")]).get_library_types ["", ""] =
        (.error .bufferTooSmall, ["", ""])) ∧
    ((LoaderRegistry.mk HandleTable.empty
        [(⟨0, 0⟩, 7, "native")]).get_num_loaders ≤ (["", ""] : List String).length →
      ((LoaderRegistry.mk (L := Nat) HandleTable.empty
        [(⟨0, 0⟩, 7, "native")]).get_library_types ["", ""]).1 =
        .ok (LoaderRegistry.mk (L := Nat) HandleTable.empty
          [(⟨0, 0⟩, 7, "native")]).get_num_loaders ∧
      ∀ ty ∈ (LoaderRegistry.mk (L := Nat) HandleTable.empty
          [(⟨0, 0⟩, 7, "native")]).registeredTypes,
        (((LoaderRegistry.mk (L := Nat) HandleTable.empty
          [(⟨0, 0⟩, 7, "native")]).get_library_types ["", ""]).2.take
            (LoaderRegistry.mk (L := Nat) HandleTable.empty
              [(⟨0, 0⟩, 7, "native")]).get_num_loaders).count ty = 1) :=
  get_library_types_buffer_contract
    (LoaderRegistry.mk HandleTable.empty [(⟨0, 0⟩, 7, "native")]) ["", ""]
    (by simp [LoaderRegistry.registeredTypes])

/-! ## Library registry and management facade (§4.4–§4.5 of the spec) -/

/-- Modelled from the spec: the loader implementation contract of §6
(consumed, not defined, by the core): load a path into a
loader-internal handle, unload such a handle, and resolve data and
function symbols within it.  `I` is the loader-internal handle type. -/
structure LoaderInterface (I : Type) where
  loadFn : String → Option I
  unloadFn : I → Option LibraryError
  dataSymbolFn : I → String → Option Nat
  fnSymbolFn : I → String → Option Nat

/-- Modelled from the spec: the per-library-handle state of §4.5:
`Unbound` (created unlinked) or `Linked` to a loader handle and a
loader-internal handle.  `Removed` is represented by the handle no
longer validating. -/
inductive LibState (I : Type) where
  | unbound
  | linked (loader : Handle) (internal : I)

/-- Modelled from the spec: the library registry plus facade state of
§4.4–§4.5 (not in the sources): the loader registry, the handle table
for library handles, and the link stored for each live library
handle. -/
structure LibrarySystem (I : Type) where
  loaders : LoaderRegistry (LoaderInterface I)
  libTable : HandleTable
  links : List (Handle × LibState I)

/-- Modelled from the spec: `get_loader_interface`, the loader
implementation behind a loader handle; `none` when the handle is
stale. -/
def LibrarySystem.get_loader_interface {I : Type} (s : LibrarySystem I)
    (loader : Handle) : Option (LoaderInterface I) :=
  if s.loaders.table.validate loader then
    (s.loaders.entries.find? fun p => decide (p.1 = loader)).map fun p => p.2.1
  else
    none

/-- Modelled from the spec: `resolve_internal`-style lookup of the state
linked with a library handle; `none` when the handle is invalid. -/
def LibrarySystem.linkOf {I : Type} (s : LibrarySystem I) (library : Handle) :
    Option (LibState I) :=
  if s.libTable.validate library then
    (s.links.find? fun p => decide (p.1 = library)).map fun p => p.2
  else
    none

/-- Modelled from the spec: `load(loader_handle, path)` fails with
`InvalidLoader` if the loader handle is stale and with `LoadFailed`
when the delegate loader rejects the path; on success it allocates a
fresh library handle, links it to the loader and the loader-internal
handle, and returns it in state `Linked` (§4.5). -/
def LibrarySystem.load {I : Type} (s : LibrarySystem I) (loader : Handle)
    (path : String) : Except LibraryError (LibrarySystem I × Handle) :=
  match s.get_loader_interface loader with
  | none => .error .invalidLoader
  | some intf =>
    match intf.loadFn path with
    | none => .error .loadFailed
    | some internal =>
      let p := s.libTable.allocate
      .ok (⟨s.loaders, p.1, s.links ++ [(p.2, .linked loader internal)]⟩, p.2)

/-- Modelled from the spec: `unload(handle)` fails with `InvalidHandle`
on a stale handle and `NotLinked` on an unbound one; otherwise it
invokes the linked loader's unload and then removes the handle,
transitioning it to `Removed` (§4.5). -/
def LibrarySystem.unload {I : Type} (s : LibrarySystem I) (library : Handle) :
    Option LibraryError × LibrarySystem I :=
  match s.linkOf library with
  | none => (some .invalidHandle, s)
  | some .unbound => (some .notLinked, s)
  | some (.linked loader internal) =>
    match s.get_loader_interface loader with
    | none => (some .invalidLoader, s)
    | some intf =>
      match intf.unloadFn internal with
      | some _ => (some .unloadFailed, s)
      | none =>
        match s.libTable.free library with
        | .error e => (some e, s)
        | .ok t' =>
          (none, ⟨s.loaders, t', s.links.filter fun p => !decide (p.1 = library)⟩)

/-- Modelled from the spec: `create_unlinked_handle` /
`create_library_handle` mints a fresh library handle with no loader
link (§4.4). -/
def LibrarySystem.create_library_handle {I : Type} (s : LibrarySystem I) :
    LibrarySystem I × Handle :=
  let p := s.libTable.allocate
  (⟨s.loaders, p.1, s.links ++ [(p.2, .unbound)]⟩, p.2)

/-- Modelled from the spec: `get_data_symbol(handle, name)` fails with
`InvalidHandle` on a stale handle, `NotLinked` on an unbound one and
`SymbolNotFound` when the library does not contain `name`; otherwise it
returns the symbol resolved by the originating loader (§4.5). -/
def LibrarySystem.get_data_symbol {I : Type} (s : LibrarySystem I)
    (library : Handle) (name : String) : Except LibraryError Nat :=
  match s.linkOf library with
  | none => .error .invalidHandle
  | some .unbound => .error .notLinked
  | some (.linked loader internal) =>
    match s.get_loader_interface loader with
    | none => .error .invalidLoader
    | some intf =>
      match intf.dataSymbolFn internal name with
      | none => .error .symbolNotFound
      | some addr => .ok addr

/-- Modelled from the spec: `get_function_symbol(handle, name)`, the
function-symbol counterpart of `get_data_symbol` (§4.5). -/
def LibrarySystem.get_function_symbol {I : Type} (s : LibrarySystem I)
    (library : Handle) (name : String) : Except LibraryError Nat :=
  match s.linkOf library with
  | none => .error .invalidHandle
  | some .unbound => .error .notLinked
  | some (.linked loader internal) =>
    match s.get_loader_interface loader with
    | none => .error .invalidLoader
    | some intf =>
      match intf.fnSymbolFn internal name with
      | none => .error .symbolNotFound
      | some addr => .ok addr

/-- Well-formedness of the facade state: the library handle table is
well-formed and every stored link belongs to a currently valid library
handle. -/
def LibrarySystem.WF {I : Type} (s : LibrarySystem I) : Prop :=
  s.libTable.WF ∧ ∀ p ∈ s.links, s.libTable.validate p.1 = true

theorem find?_assoc_append {I : Type} (l₁ l₂ : List (Handle × LibState I))
    (h : Handle) (hne : ∀ p ∈ l₁, p.1 ≠ h) :
    (l₁ ++ l₂).find? (fun p => decide (p.1 = h)) =
      l₂.find? (fun p => decide (p.1 = h)) := by
  induction l₁ with
  | nil => rfl
  | cons q l ih =>
    rw [List.cons_append,
      List.find?_cons_of_neg _ (by simp [hne q (List.mem_cons_self q l)])]
    exact ih fun p hp => hne p (List.mem_cons_of_mem q hp)

theorem keys_ne_of_invalid {I : Type} (s : LibrarySystem I)
    (hkeys : ∀ p ∈ s.links, s.libTable.validate p.1 = true) (h : Handle)
    (hinv : s.libTable.validate h = false) : ∀ p ∈ s.links, p.1 ≠ h := by
  intro p hp heq
  have hvp := hkeys p hp
  rw [heq, hinv] at hvp
  exact Bool.noConfusion hvp

theorem HandleTable.free_ok_of_valid (t : HandleTable) (h : Handle)
    (hv : t.validate h = true) :
    t.free h = .ok ⟨t.slots.set h.index ⟨h.generation + 1, false⟩,
      h.index :: t.freeList⟩ := by
  unfold HandleTable.free
  rw [if_pos hv]

/-- C6: `get_data_symbol` and `get_function_symbol` fail with
`NotLinked` on a freshly created unlinked handle, with `InvalidHandle`
on any handle that no longer validates (stale or removed), with
`SymbolNotFound` on a linked handle whose library lacks the name, and
return the loader-resolved symbol on a linked handle whose library
contains the name. -/
theorem get_symbol_state_errors {I : Type} (s : LibrarySystem I) (name : String) :
    (s.WF →
      s.create_library_handle.1.get_data_symbol s.create_library_handle.2 name =
        .error .notLinked ∧
      s.create_library_handle.1.get_function_symbol s.create_library_handle.2 name =
        .error .notLinked) ∧
    (∀ h, s.libTable.validate h = false →
      s.get_data_symbol h name = .error .invalidHandle ∧
      s.get_function_symbol h name = .error .invalidHandle) ∧
    (∀ h lh i0 intf,
      s.linkOf h = some (.linked lh i0) →
      s.get_loader_interface lh = some intf →
      (intf.dataSymbolFn i0 name = none →
        s.get_data_symbol h name = .error .symbolNotFound) ∧
      (∀ a, intf.dataSymbolFn i0 name = some a → s.get_data_symbol h name = .ok a) ∧
      (intf.fnSymbolFn i0 name = none →
        s.get_function_symbol h name = .error .symbolNotFound) ∧
      (∀ a, intf.fnSymbolFn i0 name = some a →
        s.get_function_symbol h name = .ok a)) := by
  refine ⟨fun hwf => ?_, fun h hinv => ?_, fun h lh i0 intf hlink hintf => ?_⟩
  · obtain ⟨hwt, hkeys⟩ := hwf
    have hv := HandleTable.allocate_valid s.libTable hwt
    have hfresh := HandleTable.allocate_fresh s.libTable hwt
    have hne := keys_ne_of_invalid s hkeys (s.libTable.allocate).2 hfresh
    have hfind : (s.links ++ [((s.libTable.allocate).2, LibState.unbound (I := I))]).find?
        (fun p => decide (p.1 = (s.libTable.allocate).2)) =
        some ((s.libTable.allocate).2, .unbound) := by
      rw [find?_assoc_append _ _ _ hne]
      exact List.find?_cons_of_pos _ (by simp)
    have hlink : s.create_library_handle.1.linkOf s.create_library_handle.2 =
        some .unbound := by
      simp only [LibrarySystem.create_library_handle, LibrarySystem.linkOf]
      rw [if_pos hv, hfind]
      rfl
    constructor <;>
      simp [LibrarySystem.get_data_symbol, LibrarySystem.get_function_symbol, hlink]
  · have hnone : s.linkOf h = none := by
      unfold LibrarySystem.linkOf
      rw [hinv]
      rfl
    constructor <;>
      simp [LibrarySystem.get_data_symbol, LibrarySystem.get_function_symbol, hnone]
  · refine ⟨fun hn => ?_, fun a ha => ?_, fun hn => ?_, fun a ha => ?_⟩
    · simp [LibrarySystem.get_data_symbol, hlink, hintf, hn]
    · simp [LibrarySystem.get_data_symbol, hlink, hintf, ha]
    · simp [LibrarySystem.get_function_symbol, hlink, hintf, hn]
    · simp [LibrarySystem.get_function_symbol, hlink, hintf, ha]

theorem LibrarySystem.load_ok {I : Type} (s : LibrarySystem I) (lh : Handle)
    (intf : LoaderInterface I) (path : String) (i0 : I)
    (hintf : s.get_loader_interface lh = some intf)
    (hload : intf.loadFn path = some i0) :
    s.load lh path = .ok
      (⟨s.loaders, (s.libTable.allocate).1,
        s.links ++ [((s.libTable.allocate).2, .linked lh i0)]⟩,
       (s.libTable.allocate).2) := by
  simp [LibrarySystem.load, hintf, hload]

/-- Loading preserves facade well-formedness. -/
theorem LibrarySystem.loaded_WF {I : Type} (s : LibrarySystem I)
    (st : LibState I) (hwf : s.WF) :
    (⟨s.loaders, (s.libTable.allocate).1,
      s.links ++ [((s.libTable.allocate).2, st)]⟩ : LibrarySystem I).WF := by
  obtain ⟨hwt, hkeys⟩ := hwf
  refine ⟨HandleTable.allocate_WF _ hwt, ?_⟩
  intro p hp
  rcases List.mem_append.mp hp with hp | hp
  · exact HandleTable.allocate_preserves_valid _ _ hwt (hkeys p hp)
  · have hp2 := List.mem_singleton.mp hp
    rw [hp2]
    exact HandleTable.allocate_valid _ hwt

/-- The freshly allocated entry is the one `linkOf` resolves for the
new handle. -/
theorem LibrarySystem.linkOf_append_self {I : Type} (s : LibrarySystem I)
    (st : LibState I) (hwf : s.WF) :
    (⟨s.loaders, (s.libTable.allocate).1,
      s.links ++ [((s.libTable.allocate).2, st)]⟩ : LibrarySystem I).linkOf
        (s.libTable.allocate).2 = some st := by
  obtain ⟨hwt, hkeys⟩ := hwf
  unfold LibrarySystem.linkOf
  rw [if_pos (HandleTable.allocate_valid _ hwt)]
  rw [find?_assoc_append _ _ _
    (keys_ne_of_invalid s hkeys _ (HandleTable.allocate_fresh _ hwt))]
  rw [List.find?_cons_of_pos _ (by simp)]
  rfl

/-- Appending a fresh entry does not change `linkOf` on previously
resolvable handles. -/
theorem LibrarySystem.linkOf_append_old {I : Type} (s : LibrarySystem I)
    (st : LibState I) (g : Handle) (stg : LibState I)
    (hwf : s.WF) (hg : s.linkOf g = some stg) :
    (⟨s.loaders, (s.libTable.allocate).1,
      s.links ++ [((s.libTable.allocate).2, st)]⟩ : LibrarySystem I).linkOf g =
        some stg := by
  obtain ⟨hwt, hkeys⟩ := hwf
  unfold LibrarySystem.linkOf at hg ⊢
  by_cases hv : s.libTable.validate g = true
  · rw [if_pos hv] at hg
    rw [if_pos (HandleTable.allocate_preserves_valid _ _ hwt hv)]
    rw [List.find?_append]
    cases hfind : s.links.find? fun p => decide (p.1 = g) with
    | none => rw [hfind] at hg; exact Option.noConfusion hg
    | some q =>
      rw [hfind] at hg
      simpa using hg
  · rw [if_neg hv] at hg
    exact Option.noConfusion hg

/-- A resolvable library handle is valid. -/
theorem LibrarySystem.linkOf_valid {I : Type} (s : LibrarySystem I)
    (h : Handle) (st : LibState I) (hlink : s.linkOf h = some st) :
    s.libTable.validate h = true := by
  unfold LibrarySystem.linkOf at hlink
  by_cases hv : s.libTable.validate h = true
  · exact hv
  · rw [if_neg hv] at hlink
    exact Option.noConfusion hlink

/-- Closed form of a successful `unload` of a linked handle. -/
theorem LibrarySystem.unload_linked {I : Type} (s : LibrarySystem I)
    (h lh : Handle) (i0 : I) (intf : LoaderInterface I)
    (hlink : s.linkOf h = some (.linked lh i0))
    (hintf : s.get_loader_interface lh = some intf)
    (hun : intf.unloadFn i0 = none) :
    s.unload h = (none, ⟨s.loaders,
      ⟨s.libTable.slots.set h.index ⟨h.generation + 1, false⟩,
        h.index :: s.libTable.freeList⟩,
      s.links.filter fun p => !decide (p.1 = h)⟩) := by
  have hv := LibrarySystem.linkOf_valid s h _ hlink
  simp [LibrarySystem.unload, hlink, hintf, hun,
    HandleTable.free_ok_of_valid _ _ hv]

theorem find?_filter_append_self {I : Type} (l : List (Handle × LibState I))
    (g h : Handle) (st : LibState I)
    (hne : ∀ p ∈ l, p.1 ≠ h) (hgh : h ≠ g) :
    ((l ++ [(h, st)]).filter fun p => !decide (p.1 = g)).find?
      (fun p => decide (p.1 = h)) = some (h, st) := by
  rw [List.filter_append,
    find?_assoc_append _ _ _ fun p hp => hne p (List.mem_of_mem_filter hp)]
  simp [List.filter_cons, hgh]

theorem filter_ne_of_keys {I : Type} (l : List (Handle × LibState I)) (h : Handle)
    (hne : ∀ p ∈ l, p.1 ≠ h) :
    (l.filter fun p => !decide (p.1 = h)) = l := by
  induction l with
  | nil => rfl
  | cons q l ih =>
    rw [List.filter_cons]
    simp only [hne q (List.mem_cons_self q l), decide_eq_true_eq]
    rw [if_pos (by simp [hne q (List.mem_cons_self q l)]),
      ih fun p hp => hne p (List.mem_cons_of_mem q hp)]

/-- C5: two sequential successful `load` calls through the same loader
with the same path return two distinct library handles, each in state
`Linked` and each independently unloadable in either order — the core
never dedupes loads. -/
theorem load_unique_handles {I : Type} (s : LibrarySystem I) (lh : Handle)
    (intf : LoaderInterface I) (path : String) (i0 : I)
    (hwf : s.WF) (hintf : s.get_loader_interface lh = some intf)
    (hload : intf.loadFn path = some i0) (hun : intf.unloadFn i0 = none) :
    ∃ s1 h1 s2 h2,
      s.load lh path = .ok (s1, h1) ∧
      s1.load lh path = .ok (s2, h2) ∧
      h1 ≠ h2 ∧
      s2.linkOf h1 = some (.linked lh i0) ∧
      s2.linkOf h2 = some (.linked lh i0) ∧
      (∃ s3, s2.unload h1 = (none, s3) ∧ (s3.unload h2).1 = none) ∧
      (∃ u3, s2.unload h2 = (none, u3) ∧ (u3.unload h1).1 = none) := by
  obtain ⟨hwt, hkeys⟩ := hwf
  have hL1 := LibrarySystem.load_ok s lh intf path i0 hintf hload
  set h1 := (s.libTable.allocate).2 with hh1
  set T1 := (s.libTable.allocate).1 with hT1
  set S1 : LibrarySystem I := ⟨s.loaders, T1, s.links ++ [(h1, .linked lh i0)]⟩
    with hS1
  have hwf1 : S1.WF := LibrarySystem.loaded_WF s _ ⟨hwt, hkeys⟩
  have hintf1 : S1.get_loader_interface lh = some intf := hintf
  have hL2 := LibrarySystem.load_ok S1 lh intf path i0 hintf1 hload
  set h2 := (S1.libTable.allocate).2 with hh2
  set T2 := (S1.libTable.allocate).1 with hT2
  set S2 : LibrarySystem I := ⟨S1.loaders, T2, S1.links ++ [(h2, .linked lh i0)]⟩
    with hS2
  have hwt1 : T1.WF := HandleTable.allocate_WF s.libTable hwt
  have hv1 : T1.validate h1 = true := HandleTable.allocate_valid s.libTable hwt
  have hfresh1 : s.libTable.validate h1 = false :=
    HandleTable.allocate_fresh s.libTable hwt
  have hfresh2 : T1.validate h2 = false := HandleTable.allocate_fresh T1 hwt1
  have hv2 : T2.validate h2 = true := HandleTable.allocate_valid T1 hwt1
  have hv1' : T2.validate h1 = true :=
    HandleTable.allocate_preserves_valid T1 h1 hwt1 hv1
  have hne : h1 ≠ h2 := by
    intro he
    rw [← he] at hfresh2
    rw [hv1] at hfresh2
    exact Bool.noConfusion hfresh2
  have hwf2 : S2.WF := LibrarySystem.loaded_WF S1 _ hwf1
  have hlink2 : S2.linkOf h2 = some (.linked lh i0) :=
    LibrarySystem.linkOf_append_self S1 _ hwf1
  have hlink1S1 : S1.linkOf h1 = some (.linked lh i0) :=
    LibrarySystem.linkOf_append_self s _ ⟨hwt, hkeys⟩
  have hlink1 : S2.linkOf h1 = some (.linked lh i0) :=
    LibrarySystem.linkOf_append_old S1 _ h1 _ hwf1 hlink1S1
  have hintf2 : S2.get_loader_interface lh = some intf := hintf
  have hkeysne1 : ∀ p ∈ s.links, p.1 ≠ h1 :=
    keys_ne_of_invalid s hkeys h1 hfresh1
  have hkeysne2 : ∀ p ∈ S1.links, p.1 ≠ h2 :=
    keys_ne_of_invalid S1 hwf1.2 h2 hfresh2
  -- unload the first handle, then the second
  have hu1 := LibrarySystem.unload_linked S2 h1 lh i0 intf hlink1 hintf2 hun
  set T3 : HandleTable := ⟨S2.libTable.slots.set h1.index ⟨h1.generation + 1, false⟩,
    h1.index :: S2.libTable.freeList⟩ with hT3
  set S3 : LibrarySystem I :=
    ⟨S2.loaders, T3, S2.links.filter fun p => !decide (p.1 = h1)⟩ with hS3
  have hfree1 : T2.free h1 = .ok T3 := HandleTable.free_ok_of_valid T2 h1 hv1'
  have hv3 : T3.validate h2 = true :=
    HandleTable.free_preserves_valid T2 T3 h1 h2 hfree1 (Ne.symm hne) hv2
  have hfind3 : S3.links.find? (fun p => decide (p.1 = h2)) =
      some (h2, .linked lh i0) :=
    find?_filter_append_self S1.links h1 h2 _ hkeysne2 (Ne.symm hne)
  have hlink3 : S3.linkOf h2 = some (.linked lh i0) := by
    unfold LibrarySystem.linkOf
    rw [if_pos hv3, hfind3]
    rfl
  have hintf3 : S3.get_loader_interface lh = some intf := hintf
  have hu2 := LibrarySystem.unload_linked S3 h2 lh i0 intf hlink3 hintf3 hun
  -- unload the second handle, then the first
  have hu1' := LibrarySystem.unload_linked S2 h2 lh i0 intf hlink2 hintf2 hun
  set T4 : HandleTable := ⟨S2.libTable.slots.set h2.index ⟨h2.generation + 1, false⟩,
    h2.index :: S2.libTable.freeList⟩ with hT4
  set S4 : LibrarySystem I :=
    ⟨S2.loaders, T4, S2.links.filter fun p => !decide (p.1 = h2)⟩ with hS4
  have hfree2 : T2.free h2 = .ok T4 := HandleTable.free_ok_of_valid T2 h2 hv2
  have hv4 : T4.validate h1 = true :=
    HandleTable.free_preserves_valid T2 T4 h2 h1 hfree2 hne hv1'
  have hlinks4 : (S2.links.filter fun p => !decide (p.1 = h2)) = S1.links := by
    show ((S1.links ++ [(h2, LibState.linked lh i0)]).filter
      fun p => !decide (p.1 = h2)) = S1.links
    rw [List.filter_append, filter_ne_of_keys S1.links h2 hkeysne2]
    simp [List.filter_cons]
  have hfind4 : S4.links.find? (fun p => decide (p.1 = h1)) =
      some (h1, .linked lh i0) := by
    show (S2.links.filter fun p => !decide (p.1 = h2)).find?
      (fun p => decide (p.1 = h1)) = some (h1, .linked lh i0)
    rw [hlinks4]
    show ((s.links ++ [(h1, LibState.linked lh i0)]).find?
      fun p => decide (p.1 = h1)) = some (h1, .linked lh i0)
    rw [find?_assoc_append _ _ _ hkeysne1, List.find?_cons_of_pos _ (by simp)]
  have hlink4 : S4.linkOf h1 = some (.linked lh i0) := by
    unfold LibrarySystem.linkOf
    rw [if_pos hv4, hfind4]
    rfl
  have hintf4 : S4.get_loader_interface lh = some intf := hintf
  have hu2' := LibrarySystem.unload_linked S4 h1 lh i0 intf hlink4 hintf4 hun
  exact ⟨S1, h1, S2, h2, hL1, hL2, hne, hlink1, hlink2,
    ⟨S3, hu1, by rw [hu2]⟩, ⟨S4, hu1', by rw [hu2']⟩⟩

/-- A sample loader implementation used to instantiate the facade
theorems. -/
def sampleIntf : LoaderInterface Nat :=
  ⟨fun _ => some 42, fun _ => none, fun _ _ => some 0, fun _ _ => some 0⟩

/-- A sample facade state with one registered loader and no loaded
libraries. -/
def sampleSystem : LibrarySystem Nat :=
  ⟨⟨⟨[⟨0, true⟩], []⟩, [(⟨0, 0⟩, sampleIntf, "native")]⟩, HandleTable.empty, []⟩

theorem load_unique_handles_witness :
    ∃ s1 h1 s2 h2,
      sampleSystem.load ⟨0, 0⟩ "libfoo" = .ok (s1, h1) ∧
      s1.load ⟨0, 0⟩ "libfoo" = .ok (s2, h2) ∧
      h1 ≠ h2 ∧
      s2.linkOf h1 = some (.linked ⟨0, 0⟩ 42) ∧
      s2.linkOf h2 = some (.linked ⟨0, 0⟩ 42) ∧
      (∃ s3, s2.unload h1 = (none, s3) ∧ (s3.unload h2).1 = none) ∧
      (∃ u3, s2.unload h2 = (none, u3) ∧ (u3.unload h1).1 = none) :=
  load_unique_handles sampleSystem ⟨0, 0⟩ sampleIntf "libfoo" 42
    (by refine ⟨⟨?_, ?_⟩, ?_⟩ <;> simp [sampleSystem, HandleTable.empty])
    rfl rfl rfl

end EmfRs
